import Mathlib

/-!
Verification of `fpga_topwrap/kpm_common.py`.

The Python module works on raw dataflow graphs exchanged with a graph editor:
a graph is a JSON object with `graph.nodes` (each node has a `name`, a `type`
tag and a list of `interfaces`, each interface having an `id`, a `name` and a
`direction`) and `graph.connections` (each connection a pair of interface ids
`from` / `to`).  We embed these dictionaries as structures, Python dicts with
string keys as association lists with Python-dict insertion semantics
(assigning to an existing key replaces its value in place, a fresh key is
appended), and the module's functions as Lean functions translated clause by
clause from the source.
-/

namespace Topwrap

/-- One interface of a dataflow node: the dict
`{"id": ..., "name": ..., "direction": ...}` of the raw graph schema. -/
structure Interface where
  id : String
  name : String
  direction : String
  deriving DecidableEq

/-- One node of a raw dataflow graph: the dict
`{"name": ..., "type": ..., "interfaces": [...]}`. -/
structure Node where
  name : String
  type : String
  interfaces : List Interface
  deriving DecidableEq

/-- One connection of a raw dataflow graph: the dict `{"from": ..., "to": ...}`
holding the two endpoint interface ids.  `from` is a Lean keyword, so the two
fields are named `fromId` and `toId`. -/
structure Connection where
  fromId : String
  toId : String
  deriving DecidableEq

/-- A raw dataflow graph: the `dataflow_json['graph']` object with its
`nodes` and `connections` lists. -/
structure Graph where
  nodes : List Node
  connections : List Connection
  deriving DecidableEq

/-- The value stored by `_get_interfaces` under one interface id: the dict
`{"node_name": ..., "iface_name": ..., "iface_dir": ...}`. -/
structure IfaceEntry where
  node_name : String
  iface_name : String
  iface_dir : String
  deriving DecidableEq

/-- A Python dict from interface ids to interface entries, embedded as an
association list in insertion order. -/
abbrev IfaceDict := List (String × IfaceEntry)

/-- Python dict assignment `d[k] = v`: if the key is present its value is
replaced in place (keeping the key's original position), otherwise the new
pair is appended at the end. -/
def dictInsert (d : IfaceDict) (k : String) (v : IfaceEntry) : IfaceDict :=
  if d.any (fun p => p.1 == k) then
    d.map (fun p => if p.1 == k then (k, v) else p)
  else
    d ++ [(k, v)]

/-- Python `d.keys()` in insertion order. -/
def dictKeys (d : IfaceDict) : List String :=
  d.map Prod.fst

/-- Python `d[k]` guarded by `k in d.keys()`: the value at the first (and in a
real dict, only) occurrence of the key, or `none` when the key is absent. -/
def dictGet (d : IfaceDict) (k : String) : Option IfaceEntry :=
  (d.find? (fun p => p.1 == k)).map Prod.snd

/-- Module constant `EXT_INPUT_NAME = "External Input"`. -/
def EXT_INPUT_NAME : String := "External Input"

/-- Module constant `EXT_OUTPUT_NAME = "External Output"`. -/
def EXT_OUTPUT_NAME : String := "External Output"

/-- Python `_is_external_metanode(node)`:
`node['type'] in [EXT_INPUT_NAME, EXT_OUTPUT_NAME]`. -/
def _is_external_metanode (node : Node) : Bool :=
  [EXT_INPUT_NAME, EXT_OUTPUT_NAME].contains node.type

/-- Python `get_dataflow_ip_nodes(dataflow_json)`: the nodes that are not
external metanodes. -/
def get_dataflow_ip_nodes (dataflow_json : Graph) : List Node :=
  dataflow_json.nodes.filter (fun node => !_is_external_metanode node)

/-- Python `get_dataflow_metanodes(dataflow_json)`: the nodes that are
external metanodes. -/
def get_dataflow_metanodes (dataflow_json : Graph) : List Node :=
  dataflow_json.nodes.filter (fun node => _is_external_metanode node)

/-- Python `_get_interfaces(nodes)`: the nested `for` loops filling the dict
`result`, one `result[interface['id']] = {...}` assignment per interface. -/
def _get_interfaces (nodes : List Node) : IfaceDict :=
  nodes.foldl
    (fun result node =>
      node.interfaces.foldl
        (fun result interface =>
          dictInsert result interface.id
            ⟨node.name, interface.name, interface.direction⟩)
        result)
    []

/-- Python `get_dataflow_ips_interfaces(dataflow_json)`. -/
def get_dataflow_ips_interfaces (dataflow_json : Graph) : IfaceDict :=
  _get_interfaces (get_dataflow_ip_nodes dataflow_json)

/-- Python `get_dataflow_ip_connections(dataflow_json)`: connections whose
two endpoint ids both occur among the keys of the IP-core interface dict. -/
def get_dataflow_ip_connections (dataflow_json : Graph) : List Connection :=
  let ifaces_ids := dictKeys (get_dataflow_ips_interfaces dataflow_json)
  dataflow_json.connections.filter
    (fun conn => ifaces_ids.contains conn.fromId && ifaces_ids.contains conn.toId)

/-- Python `get_dataflow_externals_interfaces(dataflow_json)`. -/
def get_dataflow_externals_interfaces (dataflow_json : Graph) : IfaceDict :=
  _get_interfaces (get_dataflow_metanodes dataflow_json)

/-- Python `get_dataflow_external_connections(dataflow_json)`: connections
with at least one endpoint id among the keys of the metanode interface dict. -/
def get_dataflow_external_connections (dataflow_json : Graph) : List Connection :=
  let ifaces_ids := dictKeys (get_dataflow_externals_interfaces dataflow_json)
  dataflow_json.connections.filter
    (fun conn => ifaces_ids.contains conn.fromId || ifaces_ids.contains conn.toId)

/-- Python `find_dataflow_interface_by_id(dataflow_json, iface_id)`: look the
id up in the interface dict built over ALL nodes; the missing-key branch of
the Python function falls through and returns `None`. -/
def find_dataflow_interface_by_id (dataflow_json : Graph) (iface_id : String) :
    Option IfaceEntry :=
  dictGet (_get_interfaces dataflow_json.nodes) iface_id

/-- One interface of a specification node descriptor: the fields of the
editor specification schema that `kpm_common.py` reads or that the spec
requires (`name`, `direction`). -/
structure SpecIface where
  name : String
  direction : String
  deriving DecidableEq

/-- One node descriptor of an editor specification: a `type` tag and its
list of interfaces. -/
structure SpecNode where
  type : String
  interfaces : List SpecIface
  deriving DecidableEq

/-- An editor specification: the dict `{"nodes": [...]}`. -/
structure Specification where
  nodes : List SpecNode
  deriving DecidableEq

/-- Inner loop of `find_spec_interface_by_name`: scan a node's interfaces in
order for the first one whose `name` matches. -/
def find_iface_in_node : List SpecIface → String → Option SpecIface
  | [], _ => none
  | interface :: rest, iface_name =>
    if interface.name == iface_name then some interface
    else find_iface_in_node rest iface_name

/-- Outer loop of `find_spec_interface_by_name`: skip nodes whose `type`
differs, scan matching nodes' interfaces, return at the first name match;
falling off the loop returns `None`. -/
def find_spec_interface_go : List SpecNode → String → String → Option SpecIface
  | [], _, _ => none
  | node :: rest, node_type, iface_name =>
    if node.type != node_type then find_spec_interface_go rest node_type iface_name
    else
      match find_iface_in_node node.interfaces iface_name with
      | some interface => some interface
      | none => find_spec_interface_go rest node_type iface_name

/-- Python `find_spec_interface_by_name(specification, node_type, iface_name)`. -/
def find_spec_interface_by_name (specification : Specification)
    (node_type : String) (iface_name : String) : Option SpecIface :=
  find_spec_interface_go specification.nodes node_type iface_name

/-- Loop of `find_dataflow_node_type_by_name`: return the `type` of the first
node whose `name` matches; falling off the loop returns `None`. -/
def find_node_type_go : List Node → String → Option String
  | [], _ => none
  | node :: rest, node_name =>
    if node.name == node_name then some node.type
    else find_node_type_go rest node_name

/-- Python `find_dataflow_node_type_by_name(dataflow_data, node_name)`. -/
def find_dataflow_node_type_by_name (dataflow_data : Graph) (node_name : String) :
    Option String :=
  find_node_type_go dataflow_data.nodes node_name

/-- All interface ids of a node list, in the iteration order of
`_get_interfaces` (nodes in order, each node's interfaces in order). -/
def allIfaceIds (nodes : List Node) : List String :=
  nodes.flatMap (fun node => node.interfaces.map (fun interface => interface.id))

/-- The (id, entry) pairs that `_get_interfaces` assigns, in assignment
order. -/
def ifacePairs (nodes : List Node) : List (String × IfaceEntry) :=
  nodes.flatMap (fun node =>
    node.interfaces.map (fun interface =>
      (interface.id, (⟨node.name, interface.name, interface.direction⟩ : IfaceEntry))))

/-- Entry of the LAST interface with a given id in the iteration order of
`_get_interfaces`, or `none` if no interface carries the id.  This is the
specification-side description of which entry wins under duplicate ids. -/
def lastEntryForId (nodes : List Node) (k : String) : Option IfaceEntry :=
  ((ifacePairs nodes).reverse.find? (fun p => p.1 == k)).map Prod.snd

/-- One catalog entry of IP-core specifications: an IP-core type name and its
interface list.  Input of the spec's `to_editor_specification`. -/
structure CatalogEntry where
  type : String
  interfaces : List SpecIface
  deriving DecidableEq

/-- Modelled from the spec: the node-type descriptor of the external-input
metanode emitted by the Translator, whose source (`ipcore_yamls_to_kpm_spec`)
is not in the repository.  Per the spec it has exactly one interface whose
direction is fixed by convention: an external-input node exposes an
output-direction interface to the internal graph. -/
def ext_input_descriptor : SpecNode :=
  ⟨EXT_INPUT_NAME, [⟨"external", "output"⟩]⟩

/-- Modelled from the spec: the node-type descriptor of the external-output
metanode, with exactly one input-direction interface (direction relative to
the internal design). -/
def ext_output_descriptor : SpecNode :=
  ⟨EXT_OUTPUT_NAME, [⟨"external", "input"⟩]⟩

/-- Modelled from the spec: `to_editor_specification(catalog)` (realised in
the repository by `ipcore_yamls_to_kpm_spec`, whose source is not under
`src/`): for each catalog entry emit a node-type descriptor whose interfaces
mirror the entry's interfaces, plus the two fixed metanode descriptors. -/
def to_editor_specification (catalog : List CatalogEntry) : Specification :=
  ⟨catalog.map (fun entry => ⟨entry.type, entry.interfaces⟩) ++
    [ext_input_descriptor, ext_output_descriptor]⟩

/-- Folding `dictInsert` over a list of (id, entry) pairs, the flattened form
of the nested loops of `_get_interfaces`. -/
def buildDict (d : IfaceDict) (pairs : List (String × IfaceEntry)) : IfaceDict :=
  pairs.foldl (fun result p => dictInsert result p.1 p.2) d

/-- Concrete data used to instantiate the theorems: an IP-core node with two
interfaces. -/
def wCore : Node :=
  ⟨"dma", "dma_core", [⟨"i1", "clk", "input"⟩, ⟨"i2", "dout", "output"⟩]⟩

/-- Concrete data: an external-output metanode with one interface. -/
def wMeta : Node :=
  ⟨"out0", "External Output", [⟨"e1", "external", "input"⟩]⟩

/-- Concrete data: a raw graph with one core node, one metanode, a mixed
connection, a core-to-core connection and a dangling connection. -/
def wGraph : Graph :=
  ⟨[wCore, wMeta], [⟨"i2", "e1"⟩, ⟨"i1", "i2"⟩, ⟨"zz", "i1"⟩]⟩

/-- Concrete data: two nodes whose single interfaces share the same id. -/
def wDupNodes : List Node :=
  [⟨"n1", "t", [⟨"d", "a", "input"⟩]⟩, ⟨"n2", "t", [⟨"d", "b", "output"⟩]⟩]

/-- Concrete data: a specification catalog with one `uart` entry. -/
def wSpec : Specification :=
  ⟨[⟨"uart", [⟨"tx", "output"⟩, ⟨"rx", "input"⟩]⟩]⟩

/-- Concrete data: a catalog of twelve IP-core types, the fixture size of the
HDMI example. -/
def wCatalog12 : List CatalogEntry :=
  [⟨"axi_dispctrl", []⟩, ⟨"clock_crossing", []⟩, ⟨"dma_axi_in_axis_out", []⟩,
    ⟨"hdmi_tx", []⟩, ⟨"litex_mmcm", []⟩, ⟨"proc_sys_reset", []⟩, ⟨"ps7", []⟩,
    ⟨"axi_axil_adapter", []⟩, ⟨"axi_interconnect", []⟩,
    ⟨"axi_protocol_converter", []⟩, ⟨"axis_dwidth_converter", []⟩,
    ⟨"axis_async_fifo", []⟩]

/-! Helper lemmas about the dict model and `_get_interfaces`. -/

theorem buildDict_nil (d : IfaceDict) : buildDict d [] = d :=
  rfl

theorem buildDict_cons (d : IfaceDict) (p : String × IfaceEntry)
    (ps : List (String × IfaceEntry)) :
    buildDict d (p :: ps) = buildDict (dictInsert d p.1 p.2) ps :=
  rfl

theorem buildDict_append (d : IfaceDict) (l₁ l₂ : List (String × IfaceEntry)) :
    buildDict d (l₁ ++ l₂) = buildDict (buildDict d l₁) l₂ := by
  unfold buildDict
  rw [List.foldl_append]

theorem ifacePairs_nil : ifacePairs [] = [] :=
  rfl

theorem ifacePairs_cons (node : Node) (nodes : List Node) :
    ifacePairs (node :: nodes) =
      node.interfaces.map (fun interface =>
        (interface.id, (⟨node.name, interface.name, interface.direction⟩ : IfaceEntry)))
        ++ ifacePairs nodes := by
  simp [ifacePairs]

theorem allIfaceIds_nil : allIfaceIds [] = [] :=
  rfl

theorem allIfaceIds_cons (node : Node) (nodes : List Node) :
    allIfaceIds (node :: nodes) =
      node.interfaces.map (fun interface => interface.id) ++ allIfaceIds nodes := by
  simp [allIfaceIds]

theorem map_fst_ifacePairs (nodes : List Node) :
    (ifacePairs nodes).map Prod.fst = allIfaceIds nodes := by
  unfold ifacePairs allIfaceIds
  rw [List.map_flatMap]
  congr 1
  funext node
  rw [List.map_map]
  rfl

/-- The nested loops of `_get_interfaces` are the fold of `dictInsert` over
the flat assignment list `ifacePairs`. -/
theorem get_interfaces_eq_buildDict (nodes : List Node) :
    _get_interfaces nodes = buildDict [] (ifacePairs nodes) := by
  suffices h : ∀ (ns : List Node) (d : IfaceDict),
      ns.foldl
        (fun result node =>
          node.interfaces.foldl
            (fun result interface =>
              dictInsert result interface.id
                ⟨node.name, interface.name, interface.direction⟩)
            result)
        d = buildDict d (ifacePairs ns) by
    exact h nodes []
  intro ns
  induction ns with
  | nil => intro d; rfl
  | cons node rest ih =>
    intro d
    rw [List.foldl_cons, ih, ifacePairs_cons, buildDict_append]
    congr 1
    simp [buildDict, List.foldl_map]

theorem mem_dictKeys_dictInsert (d : IfaceDict) (k k' : String) (v : IfaceEntry) :
    k' ∈ dictKeys (dictInsert d k v) ↔ k' ∈ dictKeys d ∨ k' = k := by
  unfold dictInsert
  split
  case isTrue h =>
    have hkeys : dictKeys (d.map (fun p => if p.1 == k then (k, v) else p)) = dictKeys d := by
      unfold dictKeys
      rw [List.map_map]
      apply List.map_congr_left
      intro p _
      by_cases hp : p.1 = k
      · simp [hp]
      · simp [hp]
    rw [hkeys]
    constructor
    · exact Or.inl
    · rintro (hmem | rfl)
      · exact hmem
      · obtain ⟨p, hp, hpk⟩ := List.any_eq_true.mp h
        have : p.1 = k' := eq_of_beq hpk
        exact this ▸ List.mem_map_of_mem Prod.fst hp
  case isFalse h =>
    unfold dictKeys
    simp

theorem mem_dictKeys_buildDict (pairs : List (String × IfaceEntry)) (d : IfaceDict)
    (k : String) :
    k ∈ dictKeys (buildDict d pairs) ↔ k ∈ dictKeys d ∨ k ∈ pairs.map Prod.fst := by
  induction pairs generalizing d with
  | nil => simp [buildDict_nil]
  | cons p ps ih =>
    rw [buildDict_cons, ih, mem_dictKeys_dictInsert]
    simp only [List.map_cons, List.mem_cons]
    tauto

/-- Membership in the keys of the interface dict is membership among the
interface ids of the node list, uniqueness or not. -/
theorem mem_dictKeys_get_interfaces (nodes : List Node) (k : String) :
    k ∈ dictKeys (_get_interfaces nodes) ↔ k ∈ allIfaceIds nodes := by
  rw [get_interfaces_eq_buildDict, mem_dictKeys_buildDict, map_fst_ifacePairs]
  simp [dictKeys]

theorem dictGet_dictInsert (d : IfaceDict) (k : String) (v : IfaceEntry) (k' : String) :
    dictGet (dictInsert d k v) k' = if k' = k then some v else dictGet d k' := by
  unfold dictGet dictInsert
  split
  case isTrue h =>
    rw [List.find?_map]
    have hpred : ((fun p : String × IfaceEntry => p.1 == k') ∘
        (fun p => if p.1 == k then (k, v) else p)) =
        (fun p : String × IfaceEntry => p.1 == k') := by
      funext p
      by_cases hp : p.1 = k
      · by_cases hk : k = k' <;> simp [hp, hk]
      · simp [hp]
    rw [hpred]
    by_cases hkk : k' = k
    · subst hkk
      obtain ⟨p, hp, hpk⟩ := List.any_eq_true.mp h
      have hsome : (d.find? (fun p => p.1 == k')).isSome = true :=
        List.find?_isSome.mpr ⟨p, hp, hpk⟩
      obtain ⟨q, hq⟩ := Option.isSome_iff_exists.mp hsome
      have hqbeq := List.find?_some hq
      have hqk : q.1 = k' := eq_of_beq hqbeq
      simp [hq, hqk]
    · simp only [if_neg hkk]
      cases hfind : d.find? (fun p => p.1 == k') with
      | none => simp
      | some q =>
        have hqbeq := List.find?_some hfind
        have hqk : q.1 = k' := eq_of_beq hqbeq
        have : ¬(q.1 = k) := by rw [hqk]; exact hkk
        simp [this]
  case isFalse h =>
    rw [List.find?_append]
    have hany : d.any (fun p => p.1 == k) = false := by
      cases hb : d.any (fun p => p.1 == k) with
      | false => rfl
      | true => exact absurd hb h
    have hnone : d.find? (fun p => p.1 == k) = none :=
      List.find?_eq_none.mpr (List.any_eq_false.mp hany)
    by_cases hkk : k' = k
    · subst hkk
      rw [hnone]
      simp [List.find?_cons]
    · cases hfind : d.find? (fun p => p.1 == k') with
      | none =>
        have hne : (k == k') = false := by
          simp [Ne.symm hkk]
        simp [hfind, List.find?_cons, hne, if_neg hkk]
      | some q =>
        simp [hfind, if_neg hkk]

theorem dictGet_buildDict (pairs : List (String × IfaceEntry)) (d : IfaceDict)
    (k : String) :
    dictGet (buildDict d pairs) k =
      match pairs.reverse.find? (fun p => p.1 == k) with
      | some p => some p.2
      | none => dictGet d k := by
  induction pairs generalizing d with
  | nil => simp [buildDict_nil]
  | cons p ps ih =>
    rw [buildDict_cons, ih]
    rw [List.reverse_cons, List.find?_append]
    cases hfind : ps.reverse.find? (fun q => q.1 == k) with
    | some q => simp
    | none =>
      rw [dictGet_dictInsert]
      by_cases hkk : k = p.1
      · simp [List.find?, hkk]
      · have : (p.1 == k) = false := by
          simp [Ne.symm hkk]
        simp [List.find?, this, if_neg hkk]

/-- The interface dict looks every id up to the entry of the last interface
with that id in iteration order, absent ids to `none`. -/
theorem dictGet_get_interfaces (nodes : List Node) (k : String) :
    dictGet (_get_interfaces nodes) k = lastEntryForId nodes k := by
  rw [get_interfaces_eq_buildDict, dictGet_buildDict]
  unfold lastEntryForId
  cases (ifacePairs nodes).reverse.find? (fun p => p.1 == k) with
  | some q => simp
  | none => simp [dictGet]

theorem dictInsert_of_fresh (d : IfaceDict) (k : String) (v : IfaceEntry)
    (h : k ∉ dictKeys d) : dictInsert d k v = d ++ [(k, v)] := by
  unfold dictInsert
  have : d.any (fun p => p.1 == k) = false := by
    rw [List.any_eq_false]
    intro p hp hpk
    exact h ((eq_of_beq hpk) ▸ List.mem_map_of_mem Prod.fst hp)
  simp [this]

theorem dictKeys_append (d₁ d₂ : IfaceDict) :
    dictKeys (d₁ ++ d₂) = dictKeys d₁ ++ dictKeys d₂ := by
  simp [dictKeys]

/-- When the keys about to be inserted are fresh and mutually distinct, the
fold of `dictInsert` appends the pairs verbatim. -/
theorem buildDict_of_nodup (pairs : List (String × IfaceEntry)) (d : IfaceDict)
    (h₁ : (pairs.map Prod.fst).Nodup)
    (h₂ : ∀ k ∈ pairs.map Prod.fst, k ∉ dictKeys d) :
    buildDict d pairs = d ++ pairs := by
  induction pairs generalizing d with
  | nil => simp [buildDict_nil]
  | cons p ps ih =>
    rw [buildDict_cons, dictInsert_of_fresh d p.1 p.2 (h₂ p.1 (by simp))]
    rw [List.map_cons, List.nodup_cons] at h₁
    rw [ih (d ++ [(p.1, p.2)]) h₁.2]
    · simp
    · intro k hk
      rw [dictKeys_append]
      simp only [List.mem_append]
      rintro (hkd | hkp)
      · exact h₂ k (by simp [hk]) hkd
      · have : k = p.1 := by simpa [dictKeys] using hkp
        exact h₁.1 (this ▸ hk)

/-- Under the id-uniqueness precondition the interface dict is literally the
assignment list. -/
theorem get_interfaces_of_nodup (nodes : List Node)
    (h : (allIfaceIds nodes).Nodup) :
    _get_interfaces nodes = ifacePairs nodes := by
  rw [get_interfaces_eq_buildDict,
    buildDict_of_nodup (ifacePairs nodes) [] (by rw [map_fst_ifacePairs]; exact h)
      (by intro k _ hk; simp [dictKeys] at hk)]
  simp

theorem find?_of_nodup_keys (l : IfaceDict) (k : String) (v : IfaceEntry)
    (hnd : (l.map Prod.fst).Nodup) (hmem : (k, v) ∈ l) :
    l.find? (fun p => p.1 == k) = some (k, v) := by
  induction l with
  | nil => cases hmem
  | cons q rest ih =>
    rw [List.map_cons, List.nodup_cons] at hnd
    cases List.mem_cons.mp hmem with
    | inl heq =>
      subst heq
      simp [List.find?_cons]
    | inr htail =>
      have hk : k ∈ rest.map Prod.fst := List.mem_map_of_mem Prod.fst htail
      have hq : (q.1 == k) = false := by
        cases hb : (q.1 == k) with
        | false => rfl
        | true => exact absurd ((eq_of_beq hb) ▸ hk) hnd.1
      rw [List.find?_cons, hq]
      exact ih hnd.2 htail

theorem contains_eq_true_iff (l : List String) (a : String) :
    l.contains a = true ↔ a ∈ l :=
  List.elem_iff

theorem mem_keys_ips (g : Graph) (k : String) :
    k ∈ dictKeys (get_dataflow_ips_interfaces g) ↔
      k ∈ allIfaceIds (get_dataflow_ip_nodes g) :=
  mem_dictKeys_get_interfaces (get_dataflow_ip_nodes g) k

theorem mem_keys_externals (g : Graph) (k : String) :
    k ∈ dictKeys (get_dataflow_externals_interfaces g) ↔
      k ∈ allIfaceIds (get_dataflow_metanodes g) :=
  mem_dictKeys_get_interfaces (get_dataflow_metanodes g) k

/-- The interface ids of the two filter partitions of a node list are a
permutation of all the interface ids. -/
theorem allIfaceIds_filter_perm (p : Node → Bool) (nodes : List Node) :
    (allIfaceIds (nodes.filter p) ++
      allIfaceIds (nodes.filter (fun node => !p node))).Perm (allIfaceIds nodes) := by
  induction nodes with
  | nil => simp [allIfaceIds_nil]
  | cons n ns ih =>
    cases hp : p n with
    | true =>
      rw [List.filter_cons, List.filter_cons]
      simp only [hp, Bool.not_true, if_true, Bool.false_eq_true, if_false]
      rw [allIfaceIds_cons, allIfaceIds_cons, List.append_assoc]
      exact ih.append_left _
    | false =>
      rw [List.filter_cons, List.filter_cons]
      simp only [hp, Bool.not_false, Bool.false_eq_true, if_false, if_true]
      rw [allIfaceIds_cons, allIfaceIds_cons]
      exact (List.perm_append_comm_assoc _ _ _).trans (ih.append_left _)

/-- Metanode interface ids followed by IP-core interface ids permute all the
graph's interface ids. -/
theorem ids_partition_perm (g : Graph) :
    (allIfaceIds (get_dataflow_metanodes g) ++
      allIfaceIds (get_dataflow_ip_nodes g)).Perm (allIfaceIds g.nodes) :=
  allIfaceIds_filter_perm _is_external_metanode g.nodes

/-- Under global id uniqueness, no id is both a metanode interface id and an
IP-core interface id. -/
theorem ids_partition_disjoint (g : Graph) (h : (allIfaceIds g.nodes).Nodup) :
    ∀ k, k ∈ allIfaceIds (get_dataflow_metanodes g) →
      k ∉ allIfaceIds (get_dataflow_ip_nodes g) := by
  have hnd := (ids_partition_perm g).symm.nodup h
  have hdisj := (List.nodup_append.mp hnd).2.2
  intro k hk
  exact List.disjoint_left.mp hdisj hk

/-- Membership in the list returned by `get_dataflow_ip_connections`,
characterised by resolvability of both endpoints among IP-core interface
ids. -/
theorem mem_ip_connections_iff (g : Graph) (conn : Connection) :
    conn ∈ get_dataflow_ip_connections g ↔
      conn ∈ g.connections ∧
        conn.fromId ∈ allIfaceIds (get_dataflow_ip_nodes g) ∧
        conn.toId ∈ allIfaceIds (get_dataflow_ip_nodes g) := by
  simp only [get_dataflow_ip_connections]
  rw [List.mem_filter]
  simp only [Bool.and_eq_true]
  rw [contains_eq_true_iff, contains_eq_true_iff, mem_keys_ips, mem_keys_ips]

/-- Membership in the list returned by `get_dataflow_external_connections`,
characterised by resolvability of at least one endpoint among metanode
interface ids. -/
theorem mem_external_connections_iff (g : Graph) (conn : Connection) :
    conn ∈ get_dataflow_external_connections g ↔
      conn ∈ g.connections ∧
        (conn.fromId ∈ allIfaceIds (get_dataflow_metanodes g) ∨
          conn.toId ∈ allIfaceIds (get_dataflow_metanodes g)) := by
  simp only [get_dataflow_external_connections]
  rw [List.mem_filter]
  simp only [Bool.or_eq_true]
  rw [contains_eq_true_iff, contains_eq_true_iff, mem_keys_externals, mem_keys_externals]

/-- Claim C2: for every raw dataflow graph, `get_dataflow_ip_nodes` and
`get_dataflow_metanodes` together contain exactly the graph's nodes (as a
permutation, and elementwise as filters of the node list), are disjoint, and
a node is classified as a metanode iff its type tag is one of the two
reserved metanode type names, with no other signal involved. -/
theorem C2_node_partition (g : Graph) :
    (get_dataflow_ip_nodes g ++ get_dataflow_metanodes g).Perm g.nodes ∧
    (∀ node, node ∈ get_dataflow_ip_nodes g ↔
      node ∈ g.nodes ∧ _is_external_metanode node = false) ∧
    (∀ node, node ∈ get_dataflow_metanodes g ↔
      node ∈ g.nodes ∧ _is_external_metanode node = true) ∧
    (∀ node, node ∈ get_dataflow_ip_nodes g → node ∉ get_dataflow_metanodes g) ∧
    (∀ node : Node, _is_external_metanode node = true ↔
      (node.type = EXT_INPUT_NAME ∨ node.type = EXT_OUTPUT_NAME)) := by
  refine ⟨?_, ?_, ?_, ?_, ?_⟩
  · exact List.perm_append_comm.trans
      (List.filter_append_perm _is_external_metanode g.nodes)
  · intro node
    simp only [get_dataflow_ip_nodes]
    rw [List.mem_filter]
    simp
  · intro node
    simp only [get_dataflow_metanodes]
    rw [List.mem_filter]
  · intro node hip hmeta
    simp only [get_dataflow_ip_nodes] at hip
    simp only [get_dataflow_metanodes] at hmeta
    rw [List.mem_filter] at hip hmeta
    rw [hmeta.2] at hip
    exact absurd hip.2 (by simp)
  · intro node
    simp only [_is_external_metanode]
    rw [contains_eq_true_iff]
    simp

/-- Witness for C2 at the concrete graph `wGraph`. -/
theorem C2_node_partition_witness :
    (get_dataflow_ip_nodes wGraph ++ get_dataflow_metanodes wGraph).Perm wGraph.nodes :=
  (C2_node_partition wGraph).1

/-- Claim C3: `get_dataflow_ip_connections` returns exactly the connections of the
graph whose two endpoint ids both occur among the IP-core interface ids; any
connection with an endpoint not resolving to a core interface (including a
dangling id) is excluded, and the function is total (no error is
signalled). -/
theorem C3_ip_connections_exact (g : Graph) (conn : Connection) :
    conn ∈ get_dataflow_ip_connections g ↔
      conn ∈ g.connections ∧
        conn.fromId ∈ allIfaceIds (get_dataflow_ip_nodes g) ∧
        conn.toId ∈ allIfaceIds (get_dataflow_ip_nodes g) :=
  mem_ip_connections_iff g conn

/-- Witness for C3: the core-to-core connection of `wGraph` is included. -/
theorem C3_ip_connections_exact_witness :
    (⟨"i1", "i2"⟩ : Connection) ∈ get_dataflow_ip_connections wGraph :=
  (C3_ip_connections_exact wGraph ⟨"i1", "i2"⟩).mpr (by decide)

/-- Claim C4: `get_dataflow_external_connections` returns exactly the connections
with at least one endpoint among the metanode interface ids, and each such
connection occurs in the result exactly as often as in the graph's
connection list (once for a connection listed once, also when only one
endpoint is external). -/
theorem C4_external_connections_exact (g : Graph) (conn : Connection) :
    (conn ∈ get_dataflow_external_connections g ↔
      conn ∈ g.connections ∧
        (conn.fromId ∈ allIfaceIds (get_dataflow_metanodes g) ∨
          conn.toId ∈ allIfaceIds (get_dataflow_metanodes g))) ∧
    (get_dataflow_external_connections g).count conn =
      (if conn.fromId ∈ allIfaceIds (get_dataflow_metanodes g) ∨
          conn.toId ∈ allIfaceIds (get_dataflow_metanodes g)
        then g.connections.count conn else 0) := by
  refine ⟨mem_external_connections_iff g conn, ?_⟩
  by_cases hext : conn.fromId ∈ allIfaceIds (get_dataflow_metanodes g) ∨
      conn.toId ∈ allIfaceIds (get_dataflow_metanodes g)
  · rw [if_pos hext]
    simp only [get_dataflow_external_connections]
    apply List.count_filter
    simp only [Bool.or_eq_true]
    rw [contains_eq_true_iff, contains_eq_true_iff, mem_keys_externals, mem_keys_externals]
    exact hext
  · rw [if_neg hext]
    rw [List.count_eq_zero]
    intro hmem
    exact hext ((mem_external_connections_iff g conn).mp hmem).2

/-- Witness for C4: the mixed connection of `wGraph` is included (and counted
once). -/
theorem C4_external_connections_exact_witness :
    (⟨"i2", "e1"⟩ : Connection) ∈ get_dataflow_external_connections wGraph :=
  ((C4_external_connections_exact wGraph ⟨"i2", "e1"⟩).1).mpr (by decide)

/-- Claim C1: under unique interface ids, a connection of the graph touching at
least one metanode interface appears in `get_dataflow_external_connections`
and not in `get_dataflow_ip_connections`, and a connection with both
endpoints among IP-core interface ids appears only in
`get_dataflow_ip_connections`. -/
theorem C1_connection_partition (g : Graph) (conn : Connection)
    (h : (allIfaceIds g.nodes).Nodup) (hc : conn ∈ g.connections) :
    ((conn.fromId ∈ allIfaceIds (get_dataflow_metanodes g) ∨
        conn.toId ∈ allIfaceIds (get_dataflow_metanodes g)) →
      conn ∈ get_dataflow_external_connections g ∧
        conn ∉ get_dataflow_ip_connections g) ∧
    ((conn.fromId ∈ allIfaceIds (get_dataflow_ip_nodes g) ∧
        conn.toId ∈ allIfaceIds (get_dataflow_ip_nodes g)) →
      conn ∈ get_dataflow_ip_connections g ∧
        conn ∉ get_dataflow_external_connections g) := by
  constructor
  · intro hext
    refine ⟨(mem_external_connections_iff g conn).mpr ⟨hc, hext⟩, ?_⟩
    intro hip
    obtain ⟨-, hfrom, hto⟩ := (mem_ip_connections_iff g conn).mp hip
    cases hext with
    | inl hf => exact ids_partition_disjoint g h _ hf hfrom
    | inr ht => exact ids_partition_disjoint g h _ ht hto
  · rintro ⟨hfrom, hto⟩
    refine ⟨(mem_ip_connections_iff g conn).mpr ⟨hc, hfrom, hto⟩, ?_⟩
    intro hextmem
    obtain ⟨-, hext⟩ := (mem_external_connections_iff g conn).mp hextmem
    cases hext with
    | inl hf => exact ids_partition_disjoint g h _ hf hfrom
    | inr ht => exact ids_partition_disjoint g h _ ht hto

/-- Witness for C1 at `wGraph`: its mixed connection lands in the external
list only. -/
theorem C1_connection_partition_witness :
    (⟨"i2", "e1"⟩ : Connection) ∈ get_dataflow_external_connections wGraph ∧
      (⟨"i2", "e1"⟩ : Connection) ∉ get_dataflow_ip_connections wGraph :=
  (C1_connection_partition wGraph ⟨"i2", "e1"⟩ (by decide) (by decide)).1 (by decide)

/-- The inner loop of the specification lookup is first-match `find?` on the
node's interface list. -/
theorem find_iface_in_node_eq (ifaces : List SpecIface) (n : String) :
    find_iface_in_node ifaces n =
      ifaces.find? (fun interface => interface.name == n) := by
  induction ifaces with
  | nil => rfl
  | cons i rest ih =>
    cases hb : (i.name == n) with
    | true => simp [find_iface_in_node, List.find?_cons, hb]
    | false => simp [find_iface_in_node, List.find?_cons, hb, ih]

/-- The loops of `find_spec_interface_by_name` compute the first name match
among the interfaces of the type-matching catalog entries, in order. -/
theorem find_spec_go_eq (nodes : List SpecNode) (t n : String) :
    find_spec_interface_go nodes t n =
      ((nodes.filter (fun node => node.type == t)).flatMap
        (fun node => node.interfaces)).find?
        (fun interface => interface.name == n) := by
  induction nodes with
  | nil => rfl
  | cons node rest ih =>
    by_cases ht : node.type = t
    · have hbt : (node.type == t) = true := by simp [ht]
      have hne : (node.type != t) = false := by simp [ht]
      simp only [find_spec_interface_go, hne, Bool.false_eq_true, if_false]
      rw [List.filter_cons]
      simp only [hbt, if_true]
      rw [List.flatMap_cons, List.find?_append, find_iface_in_node_eq]
      cases hf : node.interfaces.find? (fun interface => interface.name == n) with
      | some i => simp [hf]
      | none => simp [hf, ih]
    · have hbt : (node.type == t) = false := by simp [ht]
      have hne : (node.type != t) = true := by simp [ht]
      simp only [find_spec_interface_go, hne, if_true]
      rw [List.filter_cons]
      simp only [hbt, Bool.false_eq_true, if_false]
      exact ih

/-- Claim C5: `find_spec_interface_by_name` performs the lookup type-then-name
(first match over the interfaces of the type-matching entries, in catalog
order) and returns `none`, not an error, both when no entry has the type and
when no interface of that type has the name. -/
theorem C5_spec_lookup_type_then_name (specification : Specification)
    (node_type iface_name : String) :
    find_spec_interface_by_name specification node_type iface_name =
      ((specification.nodes.filter (fun node => node.type == node_type)).flatMap
        (fun node => node.interfaces)).find?
        (fun interface => interface.name == iface_name) ∧
    (find_spec_interface_by_name specification node_type iface_name = none ↔
      ∀ node ∈ specification.nodes, node.type = node_type →
        ∀ interface ∈ node.interfaces, interface.name ≠ iface_name) := by
  have h1 := find_spec_go_eq specification.nodes node_type iface_name
  refine ⟨h1, ?_⟩
  rw [show find_spec_interface_by_name specification node_type iface_name = _ from h1]
  rw [List.find?_eq_none]
  constructor
  · intro hall node hnode htype interface hiface hname
    refine absurd ?_ (hall interface ?_)
    · simp [hname]
    · rw [List.mem_flatMap]
      refine ⟨node, ?_, hiface⟩
      rw [List.mem_filter]
      exact ⟨hnode, by simp [htype]⟩
  · intro hall interface hmem hbeq
    rw [List.mem_flatMap] at hmem
    obtain ⟨node, hnode, hiface⟩ := hmem
    rw [List.mem_filter] at hnode
    have htype : node.type = node_type := by
      have := hnode.2
      simpa using this
    exact hall node hnode.1 htype interface hiface (eq_of_beq hbeq)

/-- Witness for C5 at the concrete catalog `wSpec`: a present name is found
and an unknown type yields `none`. -/
theorem C5_spec_lookup_type_then_name_witness :
    find_spec_interface_by_name wSpec "uart" "rx" = some ⟨"rx", "input"⟩ ∧
      find_spec_interface_by_name wSpec "spi" "rx" = none :=
  ⟨(C5_spec_lookup_type_then_name wSpec "uart" "rx").1.trans (by decide),
    (C5_spec_lookup_type_then_name wSpec "spi" "rx").2.mpr (by decide)⟩

/-- Claim C6: under unique interface ids, the interface index maps each interface
id occurring in the nodes to the triple of the owning node's name, the
interface's name and its direction, maps no other key, and
`get_dataflow_ips_interfaces` is this index over the IP-core partition. -/
theorem C6_interface_index (nodes : List Node) (h : (allIfaceIds nodes).Nodup) :
    (∀ node ∈ nodes, ∀ interface ∈ node.interfaces,
      dictGet (_get_interfaces nodes) interface.id =
        some ⟨node.name, interface.name, interface.direction⟩) ∧
    (∀ k, k ∉ allIfaceIds nodes → dictGet (_get_interfaces nodes) k = none) ∧
    (∀ g : Graph, get_dataflow_ips_interfaces g =
      _get_interfaces (get_dataflow_ip_nodes g)) := by
  refine ⟨?_, ?_, fun g => rfl⟩
  · intro node hnode interface hiface
    rw [get_interfaces_of_nodup nodes h]
    unfold dictGet
    have hmem : (interface.id,
        (⟨node.name, interface.name, interface.direction⟩ : IfaceEntry)) ∈
          ifacePairs nodes := by
      unfold ifacePairs
      rw [List.mem_flatMap]
      exact ⟨node, hnode, List.mem_map_of_mem _ hiface⟩
    rw [find?_of_nodup_keys (ifacePairs nodes) interface.id _
      (by rw [map_fst_ifacePairs]; exact h) hmem]
    rfl
  · intro k hk
    rw [get_interfaces_of_nodup nodes h]
    unfold dictGet
    have hnone : (ifacePairs nodes).find? (fun p => p.1 == k) = none := by
      rw [List.find?_eq_none]
      intro p hp hbeq
      have hp1 : p.1 ∈ allIfaceIds nodes := by
        rw [← map_fst_ifacePairs]
        exact List.mem_map_of_mem Prod.fst hp
      exact hk ((eq_of_beq hbeq) ▸ hp1)
    rw [hnone]
    rfl

/-- Witness for C6 at the nodes of `wGraph`. -/
theorem C6_interface_index_witness :
    dictGet (_get_interfaces wGraph.nodes) "i2" = some ⟨"dma", "dout", "output"⟩ :=
  (C6_interface_index wGraph.nodes (by decide)).1 wCore (by decide)
    ⟨"i2", "dout", "output"⟩ (by decide)

/-- Claim C7: `find_dataflow_interface_by_id` resolves the id against the
interfaces of ALL nodes, returning the entry of an owning node when the id is
present and `none`, not an error, when no node of the graph carries the
id. -/
theorem C7_find_interface_all_nodes (g : Graph) (iface_id : String) :
    (iface_id ∉ allIfaceIds g.nodes →
      find_dataflow_interface_by_id g iface_id = none) ∧
    (iface_id ∈ allIfaceIds g.nodes →
      ∃ node ∈ g.nodes, ∃ interface ∈ node.interfaces,
        interface.id = iface_id ∧
          find_dataflow_interface_by_id g iface_id =
            some ⟨node.name, interface.name, interface.direction⟩) := by
  constructor
  · intro hk
    unfold find_dataflow_interface_by_id
    rw [dictGet_get_interfaces]
    unfold lastEntryForId
    have hnone : (ifacePairs g.nodes).reverse.find? (fun p => p.1 == iface_id) = none := by
      rw [List.find?_eq_none]
      intro p hp hbeq
      rw [List.mem_reverse] at hp
      have hp1 : p.1 ∈ allIfaceIds g.nodes := by
        rw [← map_fst_ifacePairs]
        exact List.mem_map_of_mem Prod.fst hp
      exact hk ((eq_of_beq hbeq) ▸ hp1)
    rw [hnone]
    rfl
  · intro hk
    unfold find_dataflow_interface_by_id
    rw [dictGet_get_interfaces]
    unfold lastEntryForId
    have hex : ∃ x ∈ (ifacePairs g.nodes).reverse,
        (fun p : String × IfaceEntry => p.1 == iface_id) x = true := by
      rw [← map_fst_ifacePairs] at hk
      obtain ⟨p, hp, hpk⟩ := List.mem_map.mp hk
      exact ⟨p, List.mem_reverse.mpr hp, by simp [hpk]⟩
    have hsome := List.find?_isSome.mpr hex
    obtain ⟨q, hq⟩ := Option.isSome_iff_exists.mp hsome
    have hqbeq := List.find?_some hq
    have hqk : q.1 = iface_id := eq_of_beq hqbeq
    have hqmem : q ∈ ifacePairs g.nodes :=
      List.mem_reverse.mp (List.mem_of_find?_eq_some hq)
    unfold ifacePairs at hqmem
    rw [List.mem_flatMap] at hqmem
    obtain ⟨node, hnode, hqpair⟩ := hqmem
    rw [List.mem_map] at hqpair
    obtain ⟨interface, hiface, hpq⟩ := hqpair
    refine ⟨node, hnode, interface, hiface, ?_, ?_⟩
    · rw [← hpq] at hqk
      exact hqk
    · rw [hq, ← hpq]
      rfl

/-- Witness for C7: the dangling id of `wGraph` resolves to `none`. -/
theorem C7_find_interface_all_nodes_witness :
    find_dataflow_interface_by_id wGraph "zz" = none :=
  (C7_find_interface_all_nodes wGraph "zz").1 (by decide)

/-- The loop of `find_dataflow_node_type_by_name` is first-match `find?` on
the node list, projected to the type tag. -/
theorem find_node_type_go_eq (nodes : List Node) (node_name : String) :
    find_node_type_go nodes node_name =
      (nodes.find? (fun node => node.name == node_name)).map
        (fun node => node.type) := by
  induction nodes with
  | nil => rfl
  | cons node rest ih =>
    cases hb : (node.name == node_name) with
    | true => simp [find_node_type_go, List.find?_cons, hb]
    | false => simp [find_node_type_go, List.find?_cons, hb, ih]

/-- Claim C8: `find_dataflow_node_type_by_name` returns the type tag of the first
node in node-list order whose name matches, and `none` when no node of the
graph carries the name. -/
theorem C8_find_node_type_first_match (g : Graph) (node_name : String) :
    find_dataflow_node_type_by_name g node_name =
      ((g.nodes.find? (fun node => node.name == node_name)).map
        (fun node => node.type)) ∧
    (find_dataflow_node_type_by_name g node_name = none ↔
      ∀ node ∈ g.nodes, node.name ≠ node_name) := by
  have h1 := find_node_type_go_eq g.nodes node_name
  refine ⟨h1, ?_⟩
  rw [show find_dataflow_node_type_by_name g node_name = _ from h1]
  rw [Option.map_eq_none', List.find?_eq_none]
  constructor
  · intro hall node hnode hname
    exact absurd (by simp [hname]) (hall node hnode)
  · intro hall node hnode hbeq
    exact hall node hnode (eq_of_beq hbeq)

/-- Witness for C8: a missing name on `wGraph` yields `none`. -/
theorem C8_find_node_type_first_match_witness :
    find_dataflow_node_type_by_name wGraph "nope" = none :=
  (C8_find_node_type_first_match wGraph "nope").2.mpr (by decide)

/-- Claim C9: the emitted editor specification holds one node descriptor per
catalog entry plus the two fixed metanode descriptors, each metanode
descriptor with exactly one interface; hence a catalog of n types yields
n + 2 descriptors (12 yields 14). -/
theorem C9_editor_specification_counts (catalog : List CatalogEntry) :
    (to_editor_specification catalog).nodes =
      catalog.map (fun entry => ⟨entry.type, entry.interfaces⟩) ++
        [ext_input_descriptor, ext_output_descriptor] ∧
    (to_editor_specification catalog).nodes.length = catalog.length + 2 ∧
    ext_input_descriptor.interfaces.length = 1 ∧
    ext_output_descriptor.interfaces.length = 1 := by
  refine ⟨rfl, ?_, rfl, rfl⟩
  simp [to_editor_specification]

/-- Witness for C9: the twelve-entry catalog of the HDMI fixture yields
fourteen node descriptors. -/
theorem C9_editor_specification_counts_witness :
    (to_editor_specification wCatalog12).nodes.length = 14 :=
  (C9_editor_specification_counts wCatalog12).2.1.trans (by decide)

/-- Claim C10: whatever the node list (in particular under duplicate interface
ids), the interface index maps every id to the entry of the LAST interface
with that id in iteration order: later nodes and interfaces overwrite
earlier ones. -/
theorem C10_duplicate_ids_last_wins (nodes : List Node) (k : String) :
    dictGet (_get_interfaces nodes) k = lastEntryForId nodes k :=
  dictGet_get_interfaces nodes k

/-- Witness for C10 on two nodes sharing the interface id `d`: the second
node's entry wins. -/
theorem C10_duplicate_ids_last_wins_witness :
    dictGet (_get_interfaces wDupNodes) "d" = some ⟨"n2", "b", "output"⟩ :=
  (C10_duplicate_ids_last_wins wDupNodes "d").trans (by decide)

end Topwrap
